import Mathlib

/-!
Shallow embedding of the ECL auxiliary magnetometer-bias calibration filter
(src/EKF/mag_calibration.cpp, function Ekf::fuseMagCal).  Floating point
arithmetic is modelled over the reals; 64-bit unsigned timestamps are
modelled as naturals with explicit wraparound subtraction.
-/

open Classical
open Real

noncomputable section

namespace MagCal

/-- 4x4 covariance matrix, indexed like the C array mag_cov_mat[row][col]. -/
abbrev Mat4 := Fin 4 → Fin 4 → ℝ

/-- 3-vector, indexed like the C Vector3f. -/
abbrev Vec3 := Fin 3 → ℝ

/-- Quaternion with scalar-first component order, as in the matrix library Quatf. -/
structure Quat where
  q0 : ℝ
  q1 : ℝ
  q2 : ℝ
  q3 : ℝ

/-- The 4-element calibration state: three magnetometer bias components and
the yaw offset (struct mag_cal_states in the source). -/
structure MagCalStates where
  mag_bias : Vec3
  yaw_offset : ℝ

/-- The mutable state of the auxiliary filter touched by fuseMagCal:
the activity flag, the yaw at the last fusion, the timestamp of the last
fusion (microseconds), the 4x4 covariance and the calibration states. -/
structure EkfState where
  mag_bias_ekf_active : Bool
  mag_bias_ekf_yaw_last : ℝ
  mag_bias_ekf_time_us : ℕ
  mag_cov_mat : Mat4
  mag_cal_states : MagCalStates

/-- Read-only inputs of one fuseMagCal invocation: the delayed IMU sample,
the primary filter quantities, the magnetometer sample and parameters. -/
structure Inputs where
  delta_ang : Vec3
  delta_ang_dt : ℝ
  time_us : ℕ
  gyro_bias : Vec3
  R_to_earth : Fin 3 → Fin 3 → ℝ
  quat_nominal : Quat
  mag_use_inhibit : Bool
  mag_sample : Vec3
  mag_noise : ℝ
  geoMagNED : Vec3

/-- math::radians: degrees to radians. -/
def radians (d : ℝ) : ℝ := d * (Real.pi / 180)

/-- math::constrain(val, lo, hi): flat clamp. -/
def constrain (x lo hi : ℝ) : ℝ := if x < lo then lo else if x > hi then hi else x

/-- Unsigned 64-bit subtraction a - b with wraparound, for operands below 2^64. -/
def usub64 (a b : ℕ) : ℕ := (a + 2 ^ 64 - b) % 2 ^ 64

/-- Modelled from the spec: the external matrix library's quaternion product
(Hamilton product, scalar-first), used by the source at quat_relative =
quat_nominal * quat_relative.  The library is not part of the provided source. -/
def qmul (p q : Quat) : Quat :=
  ⟨p.q0 * q.q0 - p.q1 * q.q1 - p.q2 * q.q2 - p.q3 * q.q3,
   p.q0 * q.q1 + p.q1 * q.q0 + p.q2 * q.q3 - p.q3 * q.q2,
   p.q0 * q.q2 - p.q1 * q.q3 + p.q2 * q.q0 + p.q3 * q.q1,
   p.q0 * q.q3 + p.q1 * q.q2 - p.q2 * q.q1 + p.q3 * q.q0⟩

/-- Modelled from the spec: quat_to_invrotmat, deriving the earth-to-body
rotation from a body-to-earth quaternion (transpose of the standard
quaternion direction-cosine matrix).  Not part of the provided source. -/
def quatToInvRotMat (q : Quat) : Fin 3 → Fin 3 → ℝ := fun i j =>
  if i = 0 then
    if j = 0 then q.q0 * q.q0 + q.q1 * q.q1 - q.q2 * q.q2 - q.q3 * q.q3
    else if j = 1 then 2 * (q.q1 * q.q2 + q.q0 * q.q3)
    else 2 * (q.q1 * q.q3 - q.q0 * q.q2)
  else if i = 1 then
    if j = 0 then 2 * (q.q1 * q.q2 - q.q0 * q.q3)
    else if j = 1 then q.q0 * q.q0 - q.q1 * q.q1 + q.q2 * q.q2 - q.q3 * q.q3
    else 2 * (q.q2 * q.q3 + q.q0 * q.q1)
  else
    if j = 0 then 2 * (q.q1 * q.q3 + q.q0 * q.q2)
    else if j = 1 then 2 * (q.q2 * q.q3 - q.q0 * q.q1)
    else q.q0 * q.q0 - q.q1 * q.q1 - q.q2 * q.q2 + q.q3 * q.q3

/-- 3x3 matrix times 3-vector. -/
def mulVec (T : Fin 3 → Fin 3 → ℝ) (v : Vec3) : Vec3 := fun i =>
  T i 0 * v 0 + T i 1 * v 1 + T i 2 * v 2

/-- Modelled from the spec: four-quadrant arctangent, needed for the Euler
decomposition of the attitude quaternion (library code not in the source). -/
def atan2 (y x : ℝ) : ℝ :=
  if 0 < x then Real.arctan (y / x)
  else if x < 0 then
    if 0 ≤ y then Real.arctan (y / x) + Real.pi else Real.arctan (y / x) - Real.pi
  else
    if 0 < y then Real.pi / 2 else if y < 0 then -(Real.pi / 2) else 0

/-- Modelled from the spec: Eulerf euler321(q), component 2 (the yaw angle of
the 321 Euler decomposition of the attitude quaternion).  The Euler library
code is not part of the provided source. -/
def eulerYaw (q : Quat) : ℝ :=
  atan2 (2 * (q.q1 * q.q2 + q.q0 * q.q3))
    (q.q0 * q.q0 + q.q1 * q.q1 - q.q2 * q.q2 - q.q3 * q.q3)

/-- Bias-corrected delta angle (line 52). -/
def correctedDeltaAng (inp : Inputs) : Vec3 := fun i => inp.delta_ang i - inp.gyro_bias i

/-- Yaw rate: earth-down component of the corrected delta angle divided by dt
(lines 56-59). -/
def yawRate (inp : Inputs) : ℝ :=
  (inp.R_to_earth 2 0 * correctedDeltaAng inp 0
    + inp.R_to_earth 2 1 * correctedDeltaAng inp 1
    + inp.R_to_earth 2 2 * correctedDeltaAng inp 2) / inp.delta_ang_dt

/-- Tilt condition (line 61). -/
def tiltOk (inp : Inputs) : Prop := inp.R_to_earth 2 2 > Real.cos (radians 45)

/-- Hysteresis update of the activity flag (lines 63-67). -/
def activeNext (inp : Inputs) (st : EkfState) : Bool :=
  if st.mag_bias_ekf_active = false ∧ |yawRate inp| > radians 10 ∧ tiltOk inp then
    true
  else if st.mag_bias_ekf_active = true ∧ (|yawRate inp| < radians 5 ∨ ¬ tiltOk inp) then
    false
  else st.mag_bias_ekf_active

/-- Yaw moved since the last fusion, wrapped into [-pi, pi] (lines 81-87). -/
def yawDelta (inp : Inputs) (st : EkfState) : ℝ :=
  if eulerYaw inp.quat_nominal - st.mag_bias_ekf_yaw_last > Real.pi then
    eulerYaw inp.quat_nominal - st.mag_bias_ekf_yaw_last - 2 * Real.pi
  else if eulerYaw inp.quat_nominal - st.mag_bias_ekf_yaw_last < -Real.pi then
    eulerYaw inp.quat_nominal - st.mag_bias_ekf_yaw_last + 2 * Real.pi
  else eulerYaw inp.quat_nominal - st.mag_bias_ekf_yaw_last

/-- Seconds elapsed since the last fusion (line 94), with uint64 subtraction. -/
def timeDeltaSec (inp : Inputs) (st : EkfState) : ℝ :=
  (1e-6 : ℝ) * (usub64 inp.time_us st.mag_bias_ekf_time_us : ℝ)

/-- The diagonal prior the covariance is reset to (lines 96-100 and 229-233). -/
def priorP : Mat4 := fun i j =>
  if i = 0 ∧ j = 0 then 0.25
  else if i = 1 ∧ j = 1 then 0.25
  else if i = 2 ∧ j = 2 then 0.25
  else if i = 3 ∧ j = 3 then 1
  else 0

/-- Covariance after the process-noise injection (lines 111-114): only the
yaw-offset variance grows, by the square of dt times 0.5 deg/sec. -/
def procNoiseP (inp : Inputs) (st : EkfState) : Mat4 := fun r c =>
  if r = 3 ∧ c = 3 then
    st.mag_cov_mat 3 3 + (timeDeltaSec inp st * radians 0.5) * (timeDeltaSec inp st * radians 0.5)
  else st.mag_cov_mat r c

/-- The pure-yaw correction quaternion built from the yaw offset (lines 121-124). -/
def yawQuat (yo : ℝ) : Quat := ⟨Real.cos yo, 0, 0, Real.sin yo⟩

/-- quat_relative: attitude quaternion composed with the yaw correction (line 125). -/
def quatRelative (inp : Inputs) (st : EkfState) : Quat :=
  qmul inp.quat_nominal (yawQuat st.mag_cal_states.yaw_offset)

/-- Predicted measurement: earth field rotated into the body frame by the
yaw-corrected earth-to-body rotation, plus the bias states (lines 128-131). -/
def magObsPredicted (inp : Inputs) (st : EkfState) : Vec3 := fun i =>
  mulVec (quatToInvRotMat (quatRelative inp st)) inp.geoMagNED i
    + st.mag_cal_states.mag_bias i

/-- Measurement noise variance R_MAG (lines 134-135). -/
def rmag (inp : Inputs) : ℝ := max inp.mag_noise 0 * max inp.mag_noise 0

/-- Observation Jacobian rows for the three axes (lines 139-204), with the
algebraically optimised intermediate variables t2..t24 of the source. -/
def H_MAG (inp : Inputs) (st : EkfState) : Fin 3 → Fin 4 → ℝ := fun i j =>
  let qr := quatRelative inp st
  let q0 := qr.q0
  let q1 := qr.q1
  let q2 := qr.q2
  let mn := inp.geoMagNED 0
  let me := inp.geoMagNED 1
  let md := inp.geoMagNED 2
  let t2 := Real.cos st.mag_cal_states.yaw_offset
  let t3 := Real.sin st.mag_cal_states.yaw_offset
  let t4 := q1 * t2
  let t5 := q0 * t3
  let t6 := t4 + t5
  let t7 := q2 * t2
  let t8 := q1 * t3
  let t9 := t7 + t8
  let t10 := q0 * t2
  let t15 := q2 * t3
  let t11 := t4 - t15
  let t12 := q0 * t2 * t9 * 2
  let t13 := t8 - t10
  let t14 := q0 * t3 * t13 * 2
  let t16 := q0 * t3 * t11 * 2
  let t17 := q0 * q0
  let t18 := t9 * t11 * 2
  let t19 := q0 * t2 * t6 * 2
  let t20 := t6 * t11 * 2
  let t21 := t2 * t3 * t17 * 4
  let t22 := t6 * t13 * 2
  let t23 := t18 + t22
  let t24 := t12 - t14 + t16 + t19
  if i = 0 then
    if j = 0 then 1 else if j = 1 then 0 else if j = 2 then 0
    else -md * (t12 + t14 + t16 - q0 * t2 * t6 * 2) - me * t24
      + mn * (t18 + t6 * (t10 - q1 * t3) * 2 - t2 * t3 * t17 * 4)
  else if i = 1 then
    if j = 0 then 0 else if j = 1 then 1 else if j = 2 then 0
    else me * t23 - md * (t20 + t21 - t9 * t13 * 2) + mn * (t12 + t14 + t16 - t19)
  else
    if j = 0 then 0 else if j = 1 then 0 else if j = 2 then 1
    else -md * t23 - mn * t24 + me * (-t20 + t21 + t9 * t13 * 2)

/-- Innovation variance: R_MAG plus H P Ht (lines 208-218). -/
def innovVar (R : ℝ) (H : Fin 4 → ℝ) (P : Mat4) : ℝ :=
  R + ∑ r : Fin 4, H r * (∑ c : Fin 4, P r c * H c)

/-- Kalman gain row: (P H) scaled by the reciprocal innovation variance
(lines 242-251). -/
def kalmanGain (H : Fin 4 → ℝ) (P : Mat4) (v : ℝ) : Fin 4 → ℝ := fun r =>
  (∑ c : Fin 4, P r c * H c) * (1 / v)

/-- Covariance correction P - K H P (lines 256-280). -/
def covCorrect (K : Fin 4 → ℝ) (H : Fin 4 → ℝ) (P : Mat4) : Mat4 := fun r c =>
  P r c - ∑ k : Fin 4, K r * H k * P k c

/-- Forced symmetry: average each off-diagonal pair (lines 284-290). -/
def symmetrize (P : Mat4) : Mat4 := fun r c =>
  if r = c then P r c else (P r c + P c r) / 2

/-- Diagonal floor at 1e-12 (lines 292-294). -/
def floorDiag (P : Mat4) : Mat4 := fun r c =>
  if r = c then max (P r c) (1e-12 : ℝ) else P r c

/-- The covariance produced by one non-faulted axis update. -/
def updatedCov (R : ℝ) (H : Fin 4 → ℝ) (P : Mat4) : Mat4 :=
  floorDiag (symmetrize (covCorrect (kalmanGain H P (innovVar R H P)) H P))

/-- The calibration states produced by one non-faulted axis update: subtract
gain times the clamped innovation, then clamp the states (lines 296-309). -/
def updatedCal (R : ℝ) (H : Fin 4 → ℝ) (innov : ℝ) (P : Mat4) (s : MagCalStates) :
    MagCalStates :=
  let K := kalmanGain H P (innovVar R H P)
  let ic := constrain innov (-0.5) 0.5
  ⟨fun j => constrain (s.mag_bias j - K j.castSucc * ic) (-0.5) 0.5,
   constrain (s.yaw_offset - K 3 * ic) (-(radians 180)) (radians 180)⟩

/-- One axis of the sequential fusion (lines 205-309): none signals the
numerical fault (innovation variance below R_MAG, lines 223-239). -/
def axisUpdate (R : ℝ) (H : Fin 4 → ℝ) (innov : ℝ) (P : Mat4) (s : MagCalStates) :
    Option (Mat4 × MagCalStates) :=
  if innovVar R H P ≥ R then some (updatedCov R H P, updatedCal R H innov P s)
  else none

/-- The sequential loop over the axes (line 177).  On a fault the covariance
is reset to the diagonal prior and the remaining axes are skipped; the Bool
records whether a fault occurred. -/
def runAxes (R : ℝ) (H : Fin 3 → Fin 4 → ℝ) (pred sample : Vec3) :
    List (Fin 3) → Mat4 → MagCalStates → Bool × Mat4 × MagCalStates
  | [], P, s => (false, P, s)
  | i :: rest, P, s =>
    match axisUpdate R (H i) (pred i - sample i) P s with
    | some q => runAxes R H pred sample rest q.1 q.2
    | none => (true, priorP, s)

/-- The full three-axis fusion outcome of one cycle. -/
def cycleOutcome (inp : Inputs) (st : EkfState) : Bool × Mat4 × MagCalStates :=
  runAxes (rmag inp) (H_MAG inp st) (magObsPredicted inp st) inp.mag_sample
    [0, 1, 2] (procNoiseP inp st) st.mag_cal_states

/-- Result of a cycle that stops at one of the two gate skip checks
(lines 76-78 and 88-90): only the activity flag was (possibly) rewritten. -/
def gateResult (inp : Inputs) (st : EkfState) : EkfState :=
  ⟨activeNext inp st, st.mag_bias_ekf_yaw_last, st.mag_bias_ekf_time_us,
   st.mag_cov_mat, st.mag_cal_states⟩

/-- Result of a stale-state reset cycle (lines 95-109). -/
def resetResult (inp : Inputs) (st : EkfState) : EkfState :=
  ⟨activeNext inp st, eulerYaw inp.quat_nominal, inp.time_us, priorP,
   ⟨fun _ => 0, 0⟩⟩

/-- Result of a cycle that reaches the fusion loop: the last-fused timestamp
is updated only when no fault aborted the loop (line 312 versus line 237). -/
def fusionResult (inp : Inputs) (st : EkfState) : EkfState :=
  ⟨activeNext inp st, eulerYaw inp.quat_nominal,
   if (cycleOutcome inp st).1 = true then st.mag_bias_ekf_time_us else inp.time_us,
   (cycleOutcome inp st).2.1, (cycleOutcome inp st).2.2⟩

/-- Ekf::fuseMagCal, one invocation: the control flow of lines 49-312. -/
def fuseMagCal (inp : Inputs) (st : EkfState) : EkfState :=
  if inp.delta_ang_dt > 0.0001 then
    if inp.mag_use_inhibit = false ∨ activeNext inp st = false then gateResult inp st
    else if |yawDelta inp st| < radians 10 then gateResult inp st
    else if st.mag_bias_ekf_time_us = 0 ∨ timeDeltaSec inp st > 20 then resetResult inp st
    else fusionResult inp st
  else st

/-- All gates passed and the cycle reaches the fusion loop. -/
def fusionReached (inp : Inputs) (st : EkfState) : Prop :=
  inp.delta_ang_dt > 0.0001
    ∧ ¬(inp.mag_use_inhibit = false ∨ activeNext inp st = false)
    ∧ ¬(|yawDelta inp st| < radians 10)
    ∧ ¬(st.mag_bias_ekf_time_us = 0 ∨ timeDeltaSec inp st > 20)

/-! Concrete test vectors used to instantiate the theorems. -/

/-- Identity attitude quaternion. -/
def qId : Quat := ⟨1, 0, 0, 0⟩

/-- Zero calibration states. -/
def cal0 : MagCalStates := ⟨fun _ => 0, 0⟩

/-- A level, fast-yawing sample with the primary filter still using the
magnetometer (mag_use_inhibit = false). -/
def inpGate : Inputs :=
  ⟨fun i => if i = 2 then 1 else 0, 1, 1500000, fun _ => 0,
   fun i j => if i = j then 1 else 0, qId, false, fun _ => 0, 1, fun _ => 0⟩

/-- Same sample with a non-positive delta-angle interval. -/
def inpBadDt : Inputs := { inpGate with delta_ang_dt := 0 }

/-- Same sample with the primary filter's magnetometer use inhibited, a zero
earth field and unit measurement noise. -/
def inpFuse : Inputs := { inpGate with mag_use_inhibit := true }

/-- State with the filter inactive and the reference yaw one radian away. -/
def stGate : EkfState := ⟨false, -1, 1000000, priorP, cal0⟩

/-- A corrupted covariance with a negative X-axis variance. -/
def covNeg : Mat4 := fun r c => if r = 0 ∧ c = 0 then -1 else 0

/-- Active state carrying the corrupted covariance; fused half a second ago. -/
def stFault : EkfState := ⟨true, -1, 1000000, covNeg, cal0⟩

/-- Active state that has never fused (timestamp zero), with nonzero states. -/
def stStale : EkfState := ⟨true, -1, 0, covNeg, ⟨fun _ => 0.25, 0.5⟩⟩

/-! General helper lemmas. -/

lemma constrain_lb (x lo hi : ℝ) (h : lo ≤ hi) : lo ≤ constrain x lo hi := by
  unfold constrain
  split_ifs with h1 h2
  · exact le_rfl
  · exact h
  · exact le_of_not_lt h1

lemma constrain_ub (x lo hi : ℝ) (h : lo ≤ hi) : constrain x lo hi ≤ hi := by
  unfold constrain
  split_ifs with h1 h2
  · exact h
  · exact le_rfl
  · exact le_of_not_lt h2

lemma radians180_eq_pi : radians 180 = Real.pi := by
  unfold radians
  ring

lemma radians45_eq : radians 45 = Real.pi / 4 := by
  unfold radians
  ring

lemma radians10_lt_one : radians 10 < 1 := by
  unfold radians
  have h := Real.pi_lt_315
  linarith

lemma radians5_lt_one : radians 5 < 1 := by
  unfold radians
  have h := Real.pi_lt_315
  linarith

lemma cos_radians45_lt_one : Real.cos (radians 45) < 1 := by
  rw [radians45_eq, Real.cos_pi_div_four]
  have hs := Real.sq_sqrt (by norm_num : (0 : ℝ) ≤ 2)
  nlinarith [Real.sqrt_nonneg 2]

lemma priorP_offdiag {i j : Fin 4} (h : i ≠ j) : priorP i j = 0 := by
  fin_cases i <;> fin_cases j <;> simp_all [priorP]

lemma priorP_diag_ge (k : Fin 4) : (1e-12 : ℝ) ≤ priorP k k := by
  unfold priorP
  split_ifs with h0 h1 h2 h3
  · norm_num
  · norm_num
  · norm_num
  · norm_num
  · simp only [and_self] at h0 h1 h2 h3
    omega

lemma priorP_symm (i j : Fin 4) : priorP i j = priorP j i := by
  by_cases h : i = j
  · rw [h]
  · rw [priorP_offdiag h, priorP_offdiag (Ne.symm h)]

lemma symmetrize_symm (P : Mat4) (i j : Fin 4) : symmetrize P i j = symmetrize P j i := by
  unfold symmetrize
  by_cases h : i = j
  · rw [h]
  · rw [if_neg h, if_neg (Ne.symm h)]
    ring

lemma symmetrize_of_symm {P : Mat4} (h : ∀ i j, P i j = P j i) : symmetrize P = P := by
  funext i j
  unfold symmetrize
  split_ifs with hij
  · rfl
  · rw [h j i]
    ring

lemma floorDiag_symm {P : Mat4} (hP : ∀ i j, P i j = P j i) (i j : Fin 4) :
    floorDiag P i j = floorDiag P j i := by
  unfold floorDiag
  by_cases h : i = j
  · rw [h]
  · rw [if_neg h, if_neg (Ne.symm h)]
    exact hP i j

lemma floorDiag_diag_ge (P : Mat4) (k : Fin 4) : (1e-12 : ℝ) ≤ floorDiag P k k := by
  unfold floorDiag
  rw [if_pos rfl]
  exact le_max_right _ _

lemma floorDiag_of_ge {P : Mat4} (h : ∀ k, (1e-12 : ℝ) ≤ P k k) : floorDiag P = P := by
  funext i j
  unfold floorDiag
  split_ifs with hij
  · subst hij
    exact max_eq_left (h i)
  · rfl

lemma updatedCov_symm (R : ℝ) (H : Fin 4 → ℝ) (P : Mat4) (i j : Fin 4) :
    updatedCov R H P i j = updatedCov R H P j i :=
  floorDiag_symm (symmetrize_symm _) i j

lemma updatedCov_diag_ge (R : ℝ) (H : Fin 4 → ℝ) (P : Mat4) (k : Fin 4) :
    (1e-12 : ℝ) ≤ updatedCov R H P k k :=
  floorDiag_diag_ge _ k

lemma axisUpdate_some {R : ℝ} {H : Fin 4 → ℝ} {innov : ℝ} {P : Mat4} {s : MagCalStates}
    {P2 : Mat4} {s2 : MagCalStates} (h : axisUpdate R H innov P s = some (P2, s2)) :
    P2 = updatedCov R H P ∧ s2 = updatedCal R H innov P s := by
  unfold axisUpdate at h
  by_cases hc : innovVar R H P ≥ R
  · rw [if_pos hc] at h
    simp only [Option.some.injEq, Prod.mk.injEq] at h
    exact ⟨h.1.symm, h.2.symm⟩
  · rw [if_neg hc] at h
    exact absurd h (by simp)

lemma axisUpdate_fault {R : ℝ} {H : Fin 4 → ℝ} (innov : ℝ) {P : Mat4} (s : MagCalStates)
    (h : innovVar R H P < R) : axisUpdate R H innov P s = none := by
  unfold axisUpdate
  rw [if_neg (not_le.mpr h)]

/-! Branch characterizations of fuseMagCal. -/

lemma fuse_invalid_dt {inp : Inputs} {st : EkfState} (h : ¬ inp.delta_ang_dt > 0.0001) :
    fuseMagCal inp st = st := by
  unfold fuseMagCal
  rw [if_neg h]

lemma fuse_suppressed {inp : Inputs} {st : EkfState} (h1 : inp.delta_ang_dt > 0.0001)
    (h2 : inp.mag_use_inhibit = false ∨ activeNext inp st = false) :
    fuseMagCal inp st = gateResult inp st := by
  unfold fuseMagCal
  rw [if_pos h1, if_pos h2]

lemma fuse_throttled {inp : Inputs} {st : EkfState} (h1 : inp.delta_ang_dt > 0.0001)
    (h2 : ¬(inp.mag_use_inhibit = false ∨ activeNext inp st = false))
    (h3 : |yawDelta inp st| < radians 10) :
    fuseMagCal inp st = gateResult inp st := by
  unfold fuseMagCal
  rw [if_pos h1, if_neg h2, if_pos h3]

lemma fuse_stale {inp : Inputs} {st : EkfState} (h1 : inp.delta_ang_dt > 0.0001)
    (h2 : ¬(inp.mag_use_inhibit = false ∨ activeNext inp st = false))
    (h3 : ¬ |yawDelta inp st| < radians 10)
    (h4 : st.mag_bias_ekf_time_us = 0 ∨ timeDeltaSec inp st > 20) :
    fuseMagCal inp st = resetResult inp st := by
  unfold fuseMagCal
  rw [if_pos h1, if_neg h2, if_neg h3, if_pos h4]

lemma fuse_fusion {inp : Inputs} {st : EkfState} (h : fusionReached inp st) :
    fuseMagCal inp st = fusionResult inp st := by
  obtain ⟨h1, h2, h3, h4⟩ := h
  unfold fuseMagCal
  rw [if_pos h1, if_neg h2, if_neg h3, if_neg h4]

lemma fuse_active {inp : Inputs} {st : EkfState} (h1 : inp.delta_ang_dt > 0.0001) :
    (fuseMagCal inp st).mag_bias_ekf_active = activeNext inp st := by
  unfold fuseMagCal
  rw [if_pos h1]
  split_ifs <;> rfl

lemma activeNext_enable {inp : Inputs} {st : EkfState} (h1 : st.mag_bias_ekf_active = false)
    (h2 : |yawRate inp| > radians 10) (h3 : tiltOk inp) : activeNext inp st = true := by
  unfold activeNext
  rw [if_pos ⟨h1, h2, h3⟩]

lemma activeNext_hold_true {inp : Inputs} {st : EkfState} (h1 : st.mag_bias_ekf_active = true)
    (h2 : ¬ |yawRate inp| < radians 5) (h3 : tiltOk inp) : activeNext inp st = true := by
  unfold activeNext
  rw [if_neg, if_neg]
  · exact h1
  · rintro ⟨-, hd⟩
    rcases hd with hd | hd
    · exact h2 hd
    · exact hd h3
  · rintro ⟨hf, -⟩
    rw [h1] at hf
    exact Bool.noConfusion hf

/-! Evaluation lemmas on the concrete test vectors. -/

lemma dt_inpGate : inpGate.delta_ang_dt > 0.0001 := by
  norm_num [inpGate]

lemma dt_inpFuse : inpFuse.delta_ang_dt > 0.0001 := by
  norm_num [inpFuse, inpGate]

lemma yawRate_inpGate : yawRate inpGate = 1 := by
  simp [yawRate, correctedDeltaAng, inpGate]

lemma yawRate_inpFuse : yawRate inpFuse = 1 := by
  simp [yawRate, correctedDeltaAng, inpFuse, inpGate]

lemma tiltOk_inpGate : tiltOk inpGate := by
  unfold tiltOk
  norm_num [inpGate]
  exact cos_radians45_lt_one

lemma tiltOk_inpFuse : tiltOk inpFuse := by
  unfold tiltOk
  norm_num [inpFuse, inpGate]
  exact cos_radians45_lt_one

lemma active_gate : activeNext inpGate stGate = true := by
  apply activeNext_enable rfl
  · rw [yawRate_inpGate, abs_one]
    exact radians10_lt_one
  · exact tiltOk_inpGate

lemma active_fuse_true {st : EkfState} (h : st.mag_bias_ekf_active = true) :
    activeNext inpFuse st = true := by
  apply activeNext_hold_true h
  · rw [yawRate_inpFuse, abs_one]
    exact not_lt.mpr radians5_lt_one.le
  · exact tiltOk_inpFuse

lemma eulerYaw_qId : eulerYaw qId = 0 := by
  norm_num [eulerYaw, atan2, qId, Real.arctan_zero]

lemma yawDelta_eval {st : EkfState} (h : st.mag_bias_ekf_yaw_last = -1) :
    yawDelta inpFuse st = 1 := by
  unfold yawDelta
  rw [show inpFuse.quat_nominal = qId from rfl, eulerYaw_qId, h,
    show (0 : ℝ) - (-1) = 1 from by norm_num]
  split_ifs with h1 h2
  · linarith [Real.pi_gt_three]
  · linarith [Real.pi_gt_three]
  · rfl

lemma not_suppressed {st : EkfState} (h : st.mag_bias_ekf_active = true) :
    ¬(inpFuse.mag_use_inhibit = false ∨ activeNext inpFuse st = false) := by
  rintro (hf | hf)
  · exact Bool.noConfusion hf
  · rw [active_fuse_true h] at hf
    exact Bool.noConfusion hf

lemma not_throttled {st : EkfState} (h : st.mag_bias_ekf_yaw_last = -1) :
    ¬ |yawDelta inpFuse st| < radians 10 := by
  rw [yawDelta_eval h, abs_one]
  exact not_lt.mpr radians10_lt_one.le

lemma timeDeltaSec_fault : timeDeltaSec inpFuse stFault = 0.5 := by
  unfold timeDeltaSec usub64
  norm_num [inpFuse, inpGate, stFault]

lemma fusionReached_fault : fusionReached inpFuse stFault := by
  refine ⟨dt_inpFuse, not_suppressed rfl, not_throttled rfl, ?_⟩
  rintro (h | h)
  · norm_num [stFault] at h
  · rw [timeDeltaSec_fault] at h
    norm_num at h

lemma rmag_inpFuse : rmag inpFuse = 1 := by
  norm_num [rmag, inpFuse, inpGate]

lemma innovVar_fault :
    innovVar (rmag inpFuse) (H_MAG inpFuse stFault 0) (procNoiseP inpFuse stFault) = 0 := by
  rw [rmag_inpFuse]
  simp [innovVar, Fin.sum_univ_four, H_MAG, procNoiseP, covNeg, inpFuse, inpGate, stFault,
    cal0, quatRelative, yawQuat, qmul, qId]

lemma cycleOutcome_fault : cycleOutcome inpFuse stFault = (true, priorP, cal0) := by
  have hlt : innovVar (rmag inpFuse) (H_MAG inpFuse stFault 0) (procNoiseP inpFuse stFault)
      < rmag inpFuse := by
    rw [innovVar_fault, rmag_inpFuse]
    norm_num
  unfold cycleOutcome
  simp only [runAxes,
    axisUpdate_fault (magObsPredicted inpFuse stFault 0 - inpFuse.mag_sample 0)
      stFault.mag_cal_states hlt]
  rfl

lemma fuse_fault_eval : fuseMagCal inpFuse stFault = ⟨true, 0, 1000000, priorP, cal0⟩ := by
  rw [fuse_fusion fusionReached_fault]
  unfold fusionResult
  rw [cycleOutcome_fault, @active_fuse_true stFault rfl,
    show inpFuse.quat_nominal = qId from rfl, eulerYaw_qId]
  rfl

/-! Evaluation of the trivial (zero-Jacobian) axis update. -/

lemma innovVar_zeroH (R : ℝ) (P : Mat4) : innovVar R (fun _ => 0) P = R := by
  simp [innovVar]

lemma kalmanGain_zeroH (P : Mat4) (v : ℝ) : kalmanGain (fun _ => 0) P v = fun _ => 0 := by
  funext r
  simp [kalmanGain]

lemma updatedCov_trivial : updatedCov 1 (fun _ => 0) priorP = priorP := by
  unfold updatedCov
  rw [kalmanGain_zeroH]
  have hc : covCorrect (fun _ => 0) (fun _ => 0) priorP = priorP := by
    funext r c
    simp [covCorrect]
  rw [hc, symmetrize_of_symm priorP_symm, floorDiag_of_ge priorP_diag_ge]

lemma constrain_zero_half : constrain 0 (-0.5) 0.5 = 0 := by
  unfold constrain
  norm_num

lemma constrain_zero_yaw : constrain 0 (-(radians 180)) (radians 180) = 0 := by
  unfold constrain
  rw [radians180_eq_pi]
  split_ifs with h1 h2
  · linarith [Real.pi_pos]
  · linarith [Real.pi_pos]
  · rfl

lemma updatedCal_trivial : updatedCal 1 (fun _ => 0) 0 priorP cal0 = cal0 := by
  unfold updatedCal
  simp [kalmanGain, cal0, constrain_zero_half, constrain_zero_yaw]

lemma axisUpdate_trivial :
    axisUpdate 1 (fun _ => 0) 0 priorP cal0 = some (priorP, cal0) := by
  unfold axisUpdate
  rw [if_pos (innovVar_zeroH 1 priorP).ge, updatedCov_trivial, updatedCal_trivial]

/-! The claims. -/

/-- Claim C1: if the innovation variance of an axis falls below the raw
measurement-noise variance, the covariance is reset to the diagonal prior
diag(0.25, 0.25, 0.25, 1.0) with zero off-diagonals, the calibration states
are left exactly as at the start of that axis, the remaining axes are
skipped, and the last-fused timestamp is not updated for the sample. -/
theorem claim_fault_covariance_reset :
    (∀ (R : ℝ) (H : Fin 3 → Fin 4 → ℝ) (pred sample : Vec3) (i : Fin 3)
        (rest : List (Fin 3)) (P : Mat4) (s : MagCalStates),
        innovVar R (H i) P < R →
        runAxes R H pred sample (i :: rest) P s = (true, priorP, s))
    ∧ (∀ (inp : Inputs) (st : EkfState), fusionReached inp st →
        (cycleOutcome inp st).1 = true →
        fuseMagCal inp st = ⟨activeNext inp st, eulerYaw inp.quat_nominal,
          st.mag_bias_ekf_time_us, (cycleOutcome inp st).2.1, (cycleOutcome inp st).2.2⟩)
    ∧ (priorP 0 0 = 0.25 ∧ priorP 1 1 = 0.25 ∧ priorP 2 2 = 0.25 ∧ priorP 3 3 = 1
        ∧ ∀ i j : Fin 4, i ≠ j → priorP i j = 0) := by
  refine ⟨?_, ?_, by simp [priorP], by simp [priorP], by simp [priorP], by simp [priorP],
    fun i j h => priorP_offdiag h⟩
  · intro R H pred sample i rest P s h
    simp only [runAxes, axisUpdate_fault (pred i - sample i) s h]
  · intro inp st hreach hfault
    rw [fuse_fusion hreach]
    unfold fusionResult
    rw [if_pos hfault]

/-- Witness for claim C1 at a concrete corrupted covariance and at the
concrete faulting fusion cycle. -/
theorem claim_fault_covariance_reset_check :
    runAxes 1 (fun _ j => if j = 0 then 1 else 0) (fun _ => 0) (fun _ => 0) [0] covNeg cal0
      = (true, priorP, cal0)
    ∧ (fuseMagCal inpFuse stFault).mag_bias_ekf_time_us = stFault.mag_bias_ekf_time_us := by
  constructor
  · apply claim_fault_covariance_reset.1
    have hv : innovVar 1 (fun j => if j = 0 then (1 : ℝ) else 0) covNeg = 0 := by
      simp [innovVar, Fin.sum_univ_four, covNeg]
    show innovVar 1 (fun j => if j = 0 then (1 : ℝ) else 0) covNeg < 1
    rw [hv]
    norm_num
  · rw [claim_fault_covariance_reset.2.1 inpFuse stFault fusionReached_fault
      (by rw [cycleOutcome_fault])]

/-- Claim C2: after every non-faulted axis update the covariance is exactly
symmetric and every diagonal entry is at least 1e-12. -/
theorem claim_covariance_symmetry {R : ℝ} {H : Fin 4 → ℝ} {innov : ℝ} {P : Mat4}
    {s : MagCalStates} {P2 : Mat4} {s2 : MagCalStates}
    (h : axisUpdate R H innov P s = some (P2, s2)) :
    (∀ i j : Fin 4, P2 i j = P2 j i) ∧ ∀ k : Fin 4, (1e-12 : ℝ) ≤ P2 k k := by
  obtain ⟨hP, -⟩ := axisUpdate_some h
  subst hP
  exact ⟨updatedCov_symm R H P, updatedCov_diag_ge R H P⟩

/-- Witness for claim C2 at a concrete non-faulted axis update. -/
theorem claim_covariance_symmetry_check :
    priorP 0 1 = priorP 1 0 ∧ (1e-12 : ℝ) ≤ priorP 0 0 :=
  ⟨(claim_covariance_symmetry axisUpdate_trivial).1 0 1,
   (claim_covariance_symmetry axisUpdate_trivial).2 0⟩

/-- Claim C3 (amended): a cycle with an invalid time interval leaves all
mutable state unchanged; a cycle skipped by the suppression check or the
yaw-delta throttle leaves the calibration states, the covariance, the
last-fused yaw and the last-fused timestamp unchanged, but writes the
hysteresis result into the activity flag. -/
theorem claim_skip_frame_amended :
    (∀ (inp : Inputs) (st : EkfState), ¬ inp.delta_ang_dt > 0.0001 →
        fuseMagCal inp st = st)
    ∧ (∀ (inp : Inputs) (st : EkfState), inp.delta_ang_dt > 0.0001 →
        (inp.mag_use_inhibit = false ∨ activeNext inp st = false) →
        fuseMagCal inp st = ⟨activeNext inp st, st.mag_bias_ekf_yaw_last,
          st.mag_bias_ekf_time_us, st.mag_cov_mat, st.mag_cal_states⟩)
    ∧ (∀ (inp : Inputs) (st : EkfState), inp.delta_ang_dt > 0.0001 →
        ¬(inp.mag_use_inhibit = false ∨ activeNext inp st = false) →
        |yawDelta inp st| < radians 10 →
        fuseMagCal inp st = ⟨activeNext inp st, st.mag_bias_ekf_yaw_last,
          st.mag_bias_ekf_time_us, st.mag_cov_mat, st.mag_cal_states⟩) := by
  refine ⟨fun inp st h => fuse_invalid_dt h, fun inp st h1 h2 => ?_,
    fun inp st h1 h2 h3 => ?_⟩
  · rw [fuse_suppressed h1 h2]
    rfl
  · rw [fuse_throttled h1 h2 h3]
    rfl

/-- Counterexample to claim C3 as stated: on a suppressed-skip invocation
the activity flag is mutated by the hysteresis that runs before the skip. -/
theorem claim_skip_frame_cex :
    (fuseMagCal inpGate stGate).mag_bias_ekf_active ≠ stGate.mag_bias_ekf_active := by
  rw [fuse_suppressed dt_inpGate (Or.inl rfl)]
  show activeNext inpGate stGate ≠ stGate.mag_bias_ekf_active
  rw [active_gate]
  simp [stGate]

/-- Witness for claim C3 (amended) on the invalid-dt path. -/
theorem claim_skip_frame_check : fuseMagCal inpBadDt stGate = stGate :=
  claim_skip_frame_amended.1 inpBadDt stGate (by norm_num [inpBadDt, inpGate])

/-- Claim C4: a cycle reaching the staleness check with timestamp 0 or more
than 20 seconds since the last fusion zeroes the off-diagonal covariance,
sets the diagonal to {0.25, 0.25, 0.25, 1.0}, zeroes all four states,
records the sample time as last fused, and performs no measurement update. -/
theorem claim_stale_reset :
    ∀ (inp : Inputs) (st : EkfState), inp.delta_ang_dt > 0.0001 →
      ¬(inp.mag_use_inhibit = false ∨ activeNext inp st = false) →
      ¬ |yawDelta inp st| < radians 10 →
      (st.mag_bias_ekf_time_us = 0 ∨ timeDeltaSec inp st > 20) →
      fuseMagCal inp st = ⟨activeNext inp st, eulerYaw inp.quat_nominal, inp.time_us,
          priorP, ⟨fun _ => 0, 0⟩⟩
        ∧ priorP 0 0 = 0.25 ∧ priorP 1 1 = 0.25 ∧ priorP 2 2 = 0.25 ∧ priorP 3 3 = 1
        ∧ (∀ i j : Fin 4, i ≠ j → priorP i j = 0) := by
  intro inp st h1 h2 h3 h4
  refine ⟨?_, by simp [priorP], by simp [priorP], by simp [priorP], by simp [priorP],
    fun i j h => priorP_offdiag h⟩
  rw [fuse_stale h1 h2 h3 h4]
  rfl

/-- Witness for claim C4 at a concrete first-use (timestamp zero) cycle. -/
theorem claim_stale_reset_check :
    fuseMagCal inpFuse stStale = ⟨true, 0, 1500000, priorP, ⟨fun _ => 0, 0⟩⟩ := by
  have h := claim_stale_reset inpFuse stStale dt_inpFuse (not_suppressed rfl)
    (not_throttled rfl) (Or.inl rfl)
  rw [h.1, @active_fuse_true stStale rfl, show inpFuse.quat_nominal = qId from rfl,
    eulerYaw_qId]
  rfl

/-- Claim C5: the state delta of a non-faulted axis update is the Kalman gain
component times the innovation clamped to half a unit, subtracted from the
state; afterwards each bias component lies in [-0.5, 0.5] and the yaw offset
lies in [-pi, pi] (180 degrees) as a flat clamp. -/
theorem claim_state_clamp {R : ℝ} {H : Fin 4 → ℝ} {innov : ℝ} {P : Mat4}
    {s : MagCalStates} {P2 : Mat4} {s2 : MagCalStates}
    (h : axisUpdate R H innov P s = some (P2, s2)) :
    (∀ j : Fin 3, s2.mag_bias j =
        constrain (s.mag_bias j
          - kalmanGain H P (innovVar R H P) j.castSucc * constrain innov (-0.5) 0.5)
          (-0.5) 0.5)
    ∧ s2.yaw_offset =
        constrain (s.yaw_offset
          - kalmanGain H P (innovVar R H P) 3 * constrain innov (-0.5) 0.5)
          (-(radians 180)) (radians 180)
    ∧ (∀ j : Fin 3, -0.5 ≤ s2.mag_bias j ∧ s2.mag_bias j ≤ 0.5)
    ∧ (-(radians 180) ≤ s2.yaw_offset ∧ s2.yaw_offset ≤ radians 180) := by
  obtain ⟨-, hs⟩ := axisUpdate_some h
  subst hs
  have hyaw : -(radians 180) ≤ radians 180 := by
    rw [radians180_eq_pi]
    linarith [Real.pi_pos]
  refine ⟨fun j => rfl, rfl, fun j => ?_, ?_⟩
  · exact ⟨constrain_lb _ _ _ (by norm_num), constrain_ub _ _ _ (by norm_num)⟩
  · exact ⟨constrain_lb _ _ _ hyaw, constrain_ub _ _ _ hyaw⟩

/-- Witness for claim C5 at a concrete non-faulted axis update. -/
theorem claim_state_clamp_check :
    cal0.mag_bias 0 = constrain (cal0.mag_bias 0
        - kalmanGain (fun _ => 0) priorP (innovVar 1 (fun _ => 0) priorP)
            (Fin.castSucc 0) * constrain 0 (-0.5) 0.5) (-0.5) 0.5
    ∧ (-0.5 ≤ cal0.mag_bias 0 ∧ cal0.mag_bias 0 ≤ 0.5) :=
  ⟨(claim_state_clamp axisUpdate_trivial).1 0,
   (claim_state_clamp axisUpdate_trivial).2.2.1 0⟩

/-- Claim C6 (amended): the cycle proceeds past the yaw-delta throttle only
when the wrapped yaw difference is at least 10 degrees, otherwise it skips;
and the stored reference yaw is advanced to the current yaw by every cycle
passing the throttle, including reset cycles and fault-aborted cycles. -/
theorem claim_yaw_throttle_amended :
    (∀ (inp : Inputs) (st : EkfState), inp.delta_ang_dt > 0.0001 →
        ¬(inp.mag_use_inhibit = false ∨ activeNext inp st = false) →
        |yawDelta inp st| < radians 10 →
        fuseMagCal inp st = ⟨activeNext inp st, st.mag_bias_ekf_yaw_last,
          st.mag_bias_ekf_time_us, st.mag_cov_mat, st.mag_cal_states⟩)
    ∧ (∀ (inp : Inputs) (st : EkfState), inp.delta_ang_dt > 0.0001 →
        ¬(inp.mag_use_inhibit = false ∨ activeNext inp st = false) →
        ¬ |yawDelta inp st| < radians 10 →
        (fuseMagCal inp st).mag_bias_ekf_yaw_last = eulerYaw inp.quat_nominal) := by
  constructor
  · intro inp st h1 h2 h3
    rw [fuse_throttled h1 h2 h3]
    rfl
  · intro inp st h1 h2 h3
    by_cases h4 : st.mag_bias_ekf_time_us = 0 ∨ timeDeltaSec inp st > 20
    · rw [fuse_stale h1 h2 h3 h4]
      rfl
    · rw [fuse_fusion ⟨h1, h2, h3, h4⟩]
      rfl

/-- Counterexample to claim C6 as stated: a fault-aborted cycle (fusion does
not succeed: the last-fused timestamp is not updated) still advances the
stored reference yaw. -/
theorem claim_yaw_throttle_cex :
    (fuseMagCal inpFuse stFault).mag_bias_ekf_yaw_last ≠ stFault.mag_bias_ekf_yaw_last
    ∧ (fuseMagCal inpFuse stFault).mag_bias_ekf_time_us = stFault.mag_bias_ekf_time_us := by
  rw [fuse_fault_eval]
  refine ⟨?_, rfl⟩
  norm_num [stFault]

/-- Witness for claim C6 (amended) at the concrete fault-aborted cycle. -/
theorem claim_yaw_throttle_check :
    (fuseMagCal inpFuse stFault).mag_bias_ekf_yaw_last = eulerYaw inpFuse.quat_nominal :=
  claim_yaw_throttle_amended.2 inpFuse stFault dt_inpFuse (not_suppressed rfl)
    (not_throttled rfl)

/-- Claim C7: with a valid time interval the activity flag becomes true
exactly when it was false, the yaw rate exceeds 10 deg/s in magnitude and
the tilt condition holds; becomes false exactly when it was true and the
yaw rate is below 5 deg/s in magnitude or the tilt condition fails; and is
unchanged otherwise. -/
theorem claim_gate_hysteresis :
    ∀ (inp : Inputs) (st : EkfState), inp.delta_ang_dt > 0.0001 →
      ((st.mag_bias_ekf_active = false ∧ |yawRate inp| > radians 10 ∧ tiltOk inp) →
        (fuseMagCal inp st).mag_bias_ekf_active = true)
      ∧ ((st.mag_bias_ekf_active = true ∧ (|yawRate inp| < radians 5 ∨ ¬ tiltOk inp)) →
        (fuseMagCal inp st).mag_bias_ekf_active = false)
      ∧ (¬(st.mag_bias_ekf_active = false ∧ |yawRate inp| > radians 10 ∧ tiltOk inp) →
        ¬(st.mag_bias_ekf_active = true ∧ (|yawRate inp| < radians 5 ∨ ¬ tiltOk inp)) →
        (fuseMagCal inp st).mag_bias_ekf_active = st.mag_bias_ekf_active) := by
  intro inp st h1
  rw [fuse_active h1]
  refine ⟨fun hc => ?_, fun hc => ?_, fun hc1 hc2 => ?_⟩
  · unfold activeNext
    rw [if_pos hc]
  · have hne : ¬(st.mag_bias_ekf_active = false ∧ |yawRate inp| > radians 10 ∧ tiltOk inp) := by
      rintro ⟨hf, -⟩
      rw [hc.1] at hf
      exact Bool.noConfusion hf
    unfold activeNext
    rw [if_neg hne, if_pos hc]
  · unfold activeNext
    rw [if_neg hc1, if_neg hc2]

/-- Witness for claim C7 at a concrete enable transition. -/
theorem claim_gate_hysteresis_check :
    (fuseMagCal inpGate stGate).mag_bias_ekf_active = true :=
  (claim_gate_hysteresis inpGate stGate dt_inpGate).1
    ⟨rfl, by rw [yawRate_inpGate, abs_one]; exact radians10_lt_one, tiltOk_inpGate⟩

/-- Claim C8: on a gated non-reset fusion cycle the process-noise injection
grows only the yaw-offset variance entry (3,3), by exactly the square of the
elapsed seconds times 0.5 deg/s, leaving every other covariance entry
unchanged, and the calibration states enter the update loop unchanged. -/
theorem claim_process_noise :
    ∀ (inp : Inputs) (st : EkfState), fusionReached inp st →
      fuseMagCal inp st = fusionResult inp st
      ∧ procNoiseP inp st 3 3 = st.mag_cov_mat 3 3
          + (timeDeltaSec inp st * radians 0.5) * (timeDeltaSec inp st * radians 0.5)
      ∧ (∀ r c : Fin 4, ¬(r = 3 ∧ c = 3) → procNoiseP inp st r c = st.mag_cov_mat r c) := by
  intro inp st h
  refine ⟨fuse_fusion h, ?_, ?_⟩
  · unfold procNoiseP
    rw [if_pos ⟨rfl, rfl⟩]
  · intro r c hrc
    unfold procNoiseP
    rw [if_neg hrc]

/-- Witness for claim C8 at the concrete gated fusion cycle. -/
theorem claim_process_noise_check :
    procNoiseP inpFuse stFault 3 3 = stFault.mag_cov_mat 3 3
      + (timeDeltaSec inpFuse stFault * radians 0.5)
        * (timeDeltaSec inpFuse stFault * radians 0.5) :=
  (claim_process_noise inpFuse stFault fusionReached_fault).2.1

/-- Claim C9: the predicted measurement is the earth field rotated by the
earth-to-body rotation of the attitude quaternion composed with the pure-yaw
correction quaternion, plus the bias states; and the bias entries of each
axis Jacobian row are the identity selection of that axis. -/
theorem claim_measurement_model :
    ∀ (inp : Inputs) (st : EkfState),
      (∀ i : Fin 3, magObsPredicted inp st i =
        mulVec (quatToInvRotMat (qmul inp.quat_nominal (yawQuat st.mag_cal_states.yaw_offset)))
          inp.geoMagNED i + st.mag_cal_states.mag_bias i)
      ∧ H_MAG inp st 0 0 = 1 ∧ H_MAG inp st 0 1 = 0 ∧ H_MAG inp st 0 2 = 0
      ∧ H_MAG inp st 1 0 = 0 ∧ H_MAG inp st 1 1 = 1 ∧ H_MAG inp st 1 2 = 0
      ∧ H_MAG inp st 2 0 = 0 ∧ H_MAG inp st 2 1 = 0 ∧ H_MAG inp st 2 2 = 1 := by
  intro inp st
  refine ⟨fun i => rfl, ?_, ?_, ?_, ?_, ?_, ?_, ?_, ?_, ?_⟩ <;> simp [H_MAG]

end MagCal

end
